import Mathlib

/-!
Verification of the credential-repair utility (`fix_whatsapp_registered.py`).

The development shallowly embeds the Python module: JSON values as an
inductive type, Python dictionary operations as association-list functions,
the registration-status check and repair step as pure functions, and the
file-handling flow (`validate_credentials`, `load_credentials`,
`save_credentials`, `fix_registration_flag`, `main`) as a function over an
explicit filesystem state, a failure oracle, and an event trace.
-/

namespace CredFix

/-- JSON values as produced by `json.load`: `null` doubles as Python `None`. -/
inductive JVal where
  | null : JVal
  | bool (b : Bool) : JVal
  | num (n : Int) : JVal
  | str (s : String) : JVal
  | arr (xs : List JVal) : JVal
  | obj (fields : List (String × JVal)) : JVal

/-- Python truthiness (`bool(x)`) on JSON values. -/
def truthy : JVal → Bool
  | .null => false
  | .bool b => b
  | .num n => n != 0
  | .str s => !s.isEmpty
  | .arr xs => !xs.isEmpty
  | .obj d => !d.isEmpty

/-- Lookup of a key in a JSON object (Python `dict` access; keys from
`json.load` are unique). -/
def getVal : List (String × JVal) → String → Option JVal
  | [], _ => none
  | (k, v) :: rest, key => if k = key then some v else getVal rest key

/-- Python `d.get(key, default)`. -/
def pyGet (d : List (String × JVal)) (key : String) (default : JVal) : JVal :=
  (getVal d key).getD default

/-- Python `d[key] = v`: replace the value in place if the key exists,
otherwise append the new key at the end (insertion order). -/
def setKey : List (String × JVal) → String → JVal → List (String × JVal)
  | [], key, v => [(key, v)]
  | (k, w) :: rest, key, v =>
      if k = key then (key, v) :: rest else (k, w) :: setKey rest key v

/-- Python exceptions this code can raise out of the pure record logic. -/
inductive PyExn where
  | attributeError : PyExn

/-- Result of `CredentialManager.check_registration_status` (lines 140-145):
`registered` carries the raw value, as in the Python status dictionary. -/
structure Status where
  has_account : Bool
  has_me : Bool
  registered : JVal
  needs_fix : Bool

/-- `CredentialManager.check_registration_status` on a dictionary
(lines 136-152): `has_account = bool(creds.get("account"))`,
`has_me = bool(creds.get("me", {}).get("id"))` — an `AttributeError` when
the value stored under `"me"` is not a dictionary —
`registered = creds.get("registered", False)`, and
`needs_fix = has_account and has_me and not registered`. -/
def assessObj (d : List (String × JVal)) : Except PyExn Status :=
  let hasAccount := truthy (pyGet d "account" .null)
  match pyGet d "me" (.obj []) with
  | .obj m =>
      let hasMe := truthy (pyGet m "id" .null)
      let registered := pyGet d "registered" (.bool false)
      .ok { has_account := hasAccount
            has_me := hasMe
            registered := registered
            needs_fix := hasAccount && hasMe && !truthy registered }
  | _ => .error .attributeError

/-- `check_registration_status` on an arbitrary loaded JSON value: a
non-dictionary argument raises `AttributeError` at the first `.get` call
(line 136). -/
def assess : JVal → Except PyExn Status
  | .obj d => assessObj d
  | _ => .error .attributeError

/-- The conditional mutation of `fix_registration_flag` (lines 175-181):
when `needs_fix` holds, set `creds["registered"] = True`; otherwise the
record is left untouched. -/
def repairRecord (d : List (String × JVal)) (s : Status) : List (String × JVal) :=
  if s.needs_fix then setKey d "registered" (.bool true) else d

/-! ### Filesystem and trace model -/

/-- On-disk content of a file: either bytes that parse as the JSON value `v`
(`wf v`), or bytes that are not well-formed JSON (`bad n`, with `n`
distinguishing different malformed byte strings). -/
inductive Content where
  | wf (v : JVal) : Content
  | bad (n : Int) : Content

/-- A directory entry at the credentials path. -/
inductive Entry where
  | file (c : Content) : Entry
  | dir : Entry

/-- The filesystem state the tool touches: the credentials path and its
sibling backup path. -/
structure FS where
  creds : Option Entry
  backup : Option Content

/-- Failure oracle for the I/O operations of one invocation: whether the
read in `validate_credentials` fails, whether the read in
`load_credentials` fails, whether `shutil.copy2` fails, whether the final
write fails, and whether a `KeyboardInterrupt` arrives during
`fix_registration_flag`. -/
structure Oracle where
  read1Fails : Bool
  read2Fails : Bool
  backupFails : Bool
  writeFails : Bool
  interrupted : Bool

/-- The all-successful oracle. -/
def noFail : Oracle := ⟨false, false, false, false, false⟩

/-- Observable filesystem events of one invocation. -/
inductive Ev where
  | read : Ev
  | backupCopy : Ev
  | write : Ev
deriving DecidableEq

/-- `json.load` on file content. -/
def parseOf : Content → Option JVal
  | .wf v => some v
  | .bad _ => none

/-- `CredentialManager.validate_credentials` (lines 47-76): missing path or
non-file path fails without touching the file; otherwise the file is
opened and parsed once, and any read or parse error is caught and turned
into failure. -/
def validateCreds (fs : FS) (o : Oracle) : Bool × List Ev :=
  match fs.creds with
  | none => (false, [])
  | some .dir => (false, [])
  | some (.file c) =>
      if o.read1Fails then (false, [.read])
      else
        match parseOf c with
        | none => (false, [.read])
        | some _ => (true, [.read])

/-- `CredentialManager.load_credentials` (lines 78-92): open and parse the
file, returning `none` on any caught exception. -/
def loadCreds (fs : FS) (o : Oracle) : Option JVal × List Ev :=
  match fs.creds with
  | some (.file c) =>
      if o.read2Fails then (none, [.read]) else (parseOf c, [.read])
  | some .dir => (none, [.read])
  | none => (none, [.read])

/-- `CredentialManager.save_credentials` with `create_backup=True`
(lines 94-124): if the credentials path exists, first copy its bytes to
the backup path (a failing copy is caught and aborts the save before any
write); then overwrite the credentials path, leaving partial content
behind when the write itself fails mid-way. -/
def saveCreds (fs : FS) (o : Oracle) (v : JVal) : Bool × FS × List Ev :=
  match fs.creds with
  | some (.file c) =>
      if o.backupFails then (false, fs, [.backupCopy])
      else
        let fs1 : FS := { fs with backup := some c }
        if o.writeFails then
          (false, { fs1 with creds := some (.file (.bad 0)) }, [.backupCopy, .write])
        else
          (true, { fs1 with creds := some (.file (.wf v)) }, [.backupCopy, .write])
  | some .dir =>
      (false, fs, [.backupCopy])
  | none =>
      if o.writeFails then
        (false, { fs with creds := some (.file (.bad 0)) }, [.write])
      else
        (true, { fs with creds := some (.file (.wf v)) }, [.write])

/-- Result of one `fix_registration_flag` invocation: the Python return
value (or the exception that escaped), the final filesystem state, and
the trace of filesystem events. -/
structure RunRes where
  result : Except PyExn Bool
  fs : FS
  trace : List Ev

/-- `CredentialManager.fix_registration_flag` (lines 154-189): validate,
load, handle `creds is None` (which a top-level JSON `null` also takes),
check the status — an exception from the check propagates — and, when a
fix is needed, mutate `registered` and save with a backup. -/
def fixRegistrationFlag (fs : FS) (o : Oracle) : RunRes :=
  let (valid, t1) := validateCreds fs o
  if valid then
    let (mv, t2) := loadCreds fs o
    match mv with
    | none => ⟨.ok false, fs, t1 ++ t2⟩
    | some .null => ⟨.ok false, fs, t1 ++ t2⟩
    | some (.obj d) =>
        match assessObj d with
        | .error e => ⟨.error e, fs, t1 ++ t2⟩
        | .ok s =>
            if s.needs_fix then
              let v := JVal.obj (setKey d "registered" (.bool true))
              let (saved, fs2, t3) := saveCreds fs o v
              ⟨.ok saved, fs2, t1 ++ t2 ++ t3⟩
            else
              ⟨.ok true, fs, t1 ++ t2⟩
    | some v =>
        match assess v with
        | .error e => ⟨.error e, fs, t1 ++ t2⟩
        | .ok _ => ⟨.ok false, fs, t1 ++ t2⟩
  else
    ⟨.ok false, fs, t1⟩

/-- `main` (lines 192-225): exit `0` when `fix_registration_flag` returns
`True`, `1` when it returns `False` or raises any exception, `130` on
`KeyboardInterrupt`. -/
def runExit (fs : FS) (o : Oracle) : Nat :=
  if o.interrupted then 130
  else
    match (fixRegistrationFlag fs o).result with
    | .ok true => 0
    | .ok false => 1
    | .error _ => 1

/-! ### Backup path computation

`save_credentials` line 108 computes the backup path as
`creds_path.with_suffix(creds_path.suffix + BACKUP_SUFFIX)` with
`BACKUP_SUFFIX = ".backup"`. We model the final path component as a list
of characters and mirror CPython's `PurePath.suffix` and
`PurePath.with_suffix`. -/

/-- Index of the last `.` in a file name (`name.rfind('.')` in CPython). -/
def lastDotIdx : List Char → Option Nat
  | [] => none
  | c :: rest =>
      match lastDotIdx rest with
      | some i => some (i + 1)
      | none => if c = '.' then some 0 else none

/-- CPython `PurePath.suffix`: the part of the name from its last dot on,
provided that dot is neither the leading nor the trailing character. -/
def pySuffix (name : List Char) : List Char :=
  match lastDotIdx name with
  | some i => if 0 < i ∧ i + 1 < name.length then name.drop i else []
  | none => []

/-- CPython `PurePath.with_suffix` on the name component, for a suffix
argument that is already known to be valid (starts with a dot, is not a
bare dot, and contains no separator — which holds for every argument the
tool passes): drop the old suffix and append the new one. -/
def pyWithSuffix (name suffix : List Char) : List Char :=
  let old := pySuffix name
  if old.isEmpty then name ++ suffix
  else name.take (name.length - old.length) ++ suffix

/-- The name of the backup file for a credentials file called `name`
(line 108 together with `BACKUP_SUFFIX`, line 31). -/
def backupName (name : List Char) : List Char :=
  pyWithSuffix name (pySuffix name ++ ".backup".toList)

/-- A path as a directory part plus a final name component; `with_suffix`
never touches the directory part, so the backup path is a sibling. -/
def backupPath (p : List (List Char) × List Char) : List (List Char) × List Char :=
  (p.1, backupName p.2)

/-! ### Spec-side definitions

Used only to compare the specification's wording with the code. -/

/-- Modelled from the spec: `hasMe = truthy(record.me.id)` with an absent
`me` treated as an empty object. Meaningful when `me` is absent or an
object; the spec does not assign a reading to a non-object `me`. -/
def specHasMe (d : List (String × JVal)) : Bool :=
  match getVal d "me" with
  | some (.obj m) => truthy (pyGet m "id" .null)
  | _ => false

/-- Whether the `"me"` key of a record is absent or holds an object — the
domain on which the status check runs without raising. -/
def meOkB (d : List (String × JVal)) : Bool :=
  match getVal d "me" with
  | none => true
  | some (.obj _) => true
  | some _ => false

/-- Whether a JSON value is an object. -/
def isObj : JVal → Bool
  | .obj _ => true
  | _ => false

/-! ### Helper lemmas -/

theorem getVal_setKey_self (d : List (String × JVal)) (key : String) (v : JVal) :
    getVal (setKey d key v) key = some v := by
  induction d with
  | nil => simp [setKey, getVal]
  | cons p rest ih =>
      obtain ⟨k, w⟩ := p
      by_cases h : k = key <;> simp [setKey, getVal, h, ih]

theorem getVal_setKey_ne (d : List (String × JVal)) (key : String) (v : JVal)
    (k : String) (h : k ≠ key) : getVal (setKey d key v) k = getVal d k := by
  induction d with
  | nil => simp [setKey, getVal, Ne.symm h]
  | cons p rest ih =>
      obtain ⟨k', w⟩ := p
      by_cases h' : k' = key
      · subst h'
        simp [setKey, getVal, Ne.symm h, h]
      · simp [setKey, getVal, h']
        by_cases h'' : k' = k <;> simp [h'', ih]

theorem pyGet_setKey_ne (d : List (String × JVal)) (key : String) (v : JVal)
    (k : String) (default : JVal) (h : k ≠ key) :
    pyGet (setKey d key v) k default = pyGet d k default := by
  simp [pyGet, getVal_setKey_ne d key v k h]

/-- Every invocation leaves the filesystem untouched with a trace that is a
prefix of `[read, read, backupCopy]`, or it writes: then the trace is
exactly `[read, read, backupCopy, write]` and the backup path afterwards
holds the original content of the credentials file. -/
theorem run_shape (fs : FS) (o : Oracle) :
    ((fixRegistrationFlag fs o).fs = fs ∧
      ((fixRegistrationFlag fs o).trace = [] ∨
       (fixRegistrationFlag fs o).trace = [.read] ∨
       (fixRegistrationFlag fs o).trace = [.read, .read] ∨
       ((fixRegistrationFlag fs o).trace = [.read, .read, .backupCopy] ∧
        o.backupFails = true))) ∨
    ((fixRegistrationFlag fs o).trace = [.read, .read, .backupCopy, .write] ∧
     o.backupFails = false ∧
     ∃ c, fs.creds = some (.file c) ∧
       (fixRegistrationFlag fs o).fs.backup = some c) := by
  obtain ⟨creds, backup⟩ := fs
  match creds with
  | none => left; simp [fixRegistrationFlag, validateCreds]
  | some .dir => left; simp [fixRegistrationFlag, validateCreds]
  | some (.file c) =>
      cases hr1 : o.read1Fails
      · match c with
        | .bad n =>
            left; simp [fixRegistrationFlag, validateCreds, parseOf, hr1]
        | .wf v =>
            cases hr2 : o.read2Fails
            · match v with
              | .null =>
                  left
                  simp [fixRegistrationFlag, validateCreds, loadCreds, parseOf, hr1, hr2]
              | .bool b =>
                  left
                  simp [fixRegistrationFlag, validateCreds, loadCreds, parseOf, assess,
                        hr1, hr2]
              | .num n =>
                  left
                  simp [fixRegistrationFlag, validateCreds, loadCreds, parseOf, assess,
                        hr1, hr2]
              | .str s =>
                  left
                  simp [fixRegistrationFlag, validateCreds, loadCreds, parseOf, assess,
                        hr1, hr2]
              | .arr xs =>
                  left
                  simp [fixRegistrationFlag, validateCreds, loadCreds, parseOf, assess,
                        hr1, hr2]
              | .obj d =>
                  rcases hA : assessObj d with e | s
                  · left
                    simp [fixRegistrationFlag, validateCreds, loadCreds, parseOf,
                          hr1, hr2, hA]
                  · cases hnf : s.needs_fix
                    · left
                      simp [fixRegistrationFlag, validateCreds, loadCreds, parseOf,
                            hr1, hr2, hA, hnf]
                    · cases hb : o.backupFails
                      · cases hw : o.writeFails
                        · right
                          simp [fixRegistrationFlag, validateCreds, loadCreds, saveCreds,
                                parseOf, hr1, hr2, hA, hnf, hb, hw]
                        · right
                          simp [fixRegistrationFlag, validateCreds, loadCreds, saveCreds,
                                parseOf, hr1, hr2, hA, hnf, hb, hw]
                      · left
                        simp [fixRegistrationFlag, validateCreds, loadCreds, saveCreds,
                              parseOf, hr1, hr2, hA, hnf, hb]
            · left
              simp [fixRegistrationFlag, validateCreds, loadCreds, parseOf, hr1, hr2]
      · left
        simp [fixRegistrationFlag, validateCreds, hr1]

/-- Setting `registered := true` leaves the `account` and `me` lookups
unchanged and makes the recomputed status report `needs_fix = false`. -/
theorem assessObj_setKey_registered (d : List (String × JVal)) (s : Status)
    (h : assessObj d = .ok s) :
    ∃ s2, assessObj (setKey d "registered" (.bool true)) = .ok s2 ∧
      s2.needs_fix = false := by
  have hreg' : pyGet (setKey d "registered" (.bool true)) "registered" (.bool false) =
      .bool true := by
    simp [pyGet, getVal_setKey_self]
  unfold assessObj at h ⊢
  simp only [pyGet_setKey_ne d "registered" (.bool true) "me" (.obj []) (by decide),
             pyGet_setKey_ne d "registered" (.bool true) "account" .null (by decide),
             hreg']
  rcases hme : pyGet d "me" (.obj []) with _ | b | n | t | xs | m
  · (try rw [hme] at h); simp at h
  · (try rw [hme] at h); simp at h
  · (try rw [hme] at h); simp at h
  · (try rw [hme] at h); simp at h
  · (try rw [hme] at h); simp at h
  · exact ⟨_, rfl, by simp [truthy]⟩

/-- The record produced by the conditional repair always re-assesses with
`needs_fix = false`. -/
theorem assess_after_repair (d : List (String × JVal)) (s : Status)
    (h : assessObj d = .ok s) :
    ∃ s2, assessObj (repairRecord d s) = .ok s2 ∧ s2.needs_fix = false := by
  cases hnf : s.needs_fix
  · exact ⟨s, by simpa [repairRecord, hnf] using h, hnf⟩
  · obtain ⟨s2, h2, hnf2⟩ := assessObj_setKey_registered d s h
    exact ⟨s2, by simpa [repairRecord, hnf] using h2, hnf2⟩

/-- A failure-free run on a well-formed object whose status needs no fix
returns success, touches nothing, and reads twice. -/
theorem run_noFix (backup : Option Content) (d : List (String × JVal)) (s : Status)
    (h : assessObj d = .ok s) (hnf : s.needs_fix = false) :
    fixRegistrationFlag ⟨some (.file (.wf (.obj d))), backup⟩ noFail =
      ⟨.ok true, ⟨some (.file (.wf (.obj d))), backup⟩, [.read, .read]⟩ := by
  simp [fixRegistrationFlag, validateCreds, loadCreds, parseOf, noFail, h, hnf]

/-- A failure-free run on a well-formed object whose status check raises
propagates the exception after the two reads, touching nothing. -/
theorem run_assessErr (backup : Option Content) (d : List (String × JVal)) (e : PyExn)
    (h : assessObj d = .error e) :
    fixRegistrationFlag ⟨some (.file (.wf (.obj d))), backup⟩ noFail =
      ⟨.error e, ⟨some (.file (.wf (.obj d))), backup⟩, [.read, .read]⟩ := by
  simp [fixRegistrationFlag, validateCreds, loadCreds, parseOf, noFail, h]

/-- A failure-free run on a well-formed object whose status needs the fix
backs the file up and overwrites it with the repaired record. -/
theorem run_fix (backup : Option Content) (d : List (String × JVal)) (s : Status)
    (h : assessObj d = .ok s) (hnf : s.needs_fix = true) :
    fixRegistrationFlag ⟨some (.file (.wf (.obj d))), backup⟩ noFail =
      ⟨.ok true,
       ⟨some (.file (.wf (.obj (setKey d "registered" (.bool true))))),
        some (.wf (.obj d))⟩,
       [.read, .read, .backupCopy, .write]⟩ := by
  simp [fixRegistrationFlag, validateCreds, loadCreds, saveCreds, parseOf, noFail, h, hnf]

/-! ### Lemmas about the backup-name computation -/

theorem lastDotIdx_lt (name : List Char) (i : Nat) (h : lastDotIdx name = some i) :
    i < name.length := by
  induction name generalizing i with
  | nil => simp [lastDotIdx] at h
  | cons c rest ih =>
      unfold lastDotIdx at h
      rcases hr : lastDotIdx rest with _ | j
      · (try rw [hr] at h)
        by_cases hc : c = '.'
        · rw [if_pos hc] at h
          simp only [Option.some.injEq] at h
          simp only [List.length_cons]
          omega
        · simp [hc] at h
      · (try rw [hr] at h)
        simp only [Option.some.injEq] at h
        have := ih j hr
        simp only [List.length_cons]
        omega

theorem pySuffix_eq_drop (name : List Char) (h : pySuffix name ≠ []) :
    ∃ i, i ≤ name.length ∧ pySuffix name = name.drop i := by
  unfold pySuffix at h ⊢
  rcases hr : lastDotIdx name with _ | i
  · (try rw [hr] at h)
    simp at h
  · (try rw [hr] at h)
    by_cases hcond : 0 < i ∧ i + 1 < name.length
    · exact ⟨i, le_of_lt (lastDotIdx_lt name i hr), by simp [hcond]⟩
    · simp [hcond] at h

/-- `with_suffix(suffix + ".backup")` always appends `".backup"` to the
original file name. The nonemptiness hypothesis mirrors the `with_suffix`
precondition (CPython raises on an empty name); the model never takes
that branch, so the hypothesis is not otherwise consumed. -/
theorem backupName_append (name : List Char) (_h : name ≠ []) :
    backupName name = name ++ ".backup".toList := by
  unfold backupName pyWithSuffix
  by_cases hS : pySuffix name = []
  · simp [hS]
  · obtain ⟨i, hle, hdrop⟩ := pySuffix_eq_drop name hS
    rw [hdrop] at hS
    simp only [hdrop, List.isEmpty_iff, List.length_drop]
    rw [if_neg hS, Nat.sub_sub_self hle, ← List.append_assoc, List.take_append_drop]

/-- When the loaded record needs no fix, no invocation writes, whatever the
oracle does. -/
theorem no_write_of_noFix (d : List (String × JVal)) (s : Status)
    (h : assessObj d = .ok s) (hnf : s.needs_fix = false)
    (fs : FS) (o : Oracle) (hc : fs.creds = some (.file (.wf (.obj d)))) :
    Ev.write ∉ (fixRegistrationFlag fs o).trace := by
  obtain ⟨creds, backup⟩ := fs
  simp only at hc
  subst hc
  cases hr1 : o.read1Fails
  · cases hr2 : o.read2Fails
    · simp [fixRegistrationFlag, validateCreds, loadCreds, parseOf, hr1, hr2, h, hnf]
    · simp [fixRegistrationFlag, validateCreds, loadCreds, parseOf, hr1, hr2]
  · simp [fixRegistrationFlag, validateCreds, hr1]

/-! ### The claims -/

/-- C1, counterexample: for the record `{"me": "y"}` — `account` absent,
so the claim predicts a status with `needs_fix = false` — the assessment
raises `AttributeError` instead of computing any status, because the value
under `"me"` is not a dictionary. -/
theorem c1_counterexample :
    assess (JVal.obj [("me", JVal.str "y")]) = .error .attributeError := rfl

/-- C1 (amended): for every credential record whose `me` key is absent or
holds an object, the assessment computes `has_account` as the truthiness
of `record.account`, `has_me` as the truthiness of `record.me.id` (absent
`me` treated as an empty object), `registered` as `record.registered`
defaulting to false when absent, and
`needs_fix = has_account AND has_me AND NOT registered`; in particular,
for every such record where `account` is absent or falsy, `needs_fix` is
false regardless of `me` and `registered`. (Records whose `me` key holds
a non-object raise `AttributeError` instead; see C8.) -/
theorem c1_assess_formula (d : List (String × JVal)) (h : meOkB d = true) :
    assessObj d =
      .ok ⟨truthy (pyGet d "account" .null), specHasMe d,
           pyGet d "registered" (.bool false),
           truthy (pyGet d "account" .null) && specHasMe d &&
             !truthy (pyGet d "registered" (.bool false))⟩ ∧
    (truthy (pyGet d "account" .null) = false →
      ∀ s, assessObj d = .ok s → s.needs_fix = false) := by
  have hform : assessObj d =
      .ok ⟨truthy (pyGet d "account" .null), specHasMe d,
           pyGet d "registered" (.bool false),
           truthy (pyGet d "account" .null) && specHasMe d &&
             !truthy (pyGet d "registered" (.bool false))⟩ := by
    unfold assessObj specHasMe
    unfold meOkB at h
    rcases hme : getVal d "me" with _ | v
    · (try rw [hme] at h)
      simp [pyGet, hme, getVal, truthy]
    · cases v with
      | null => (try rw [hme] at h); simp at h
      | bool b => (try rw [hme] at h); simp at h
      | num n => (try rw [hme] at h); simp at h
      | str t => (try rw [hme] at h); simp at h
      | arr xs => (try rw [hme] at h); simp at h
      | obj m => simp [pyGet, hme]
  refine ⟨hform, ?_⟩
  intro hacc s hs
  rw [hform] at hs
  injection hs with h'
  subst h'
  simp [hacc]

/-- C1 witness: the record `{"account": "x"}` — `me` absent — assesses to
`has_account = true`, `has_me = false`, `registered = false`,
`needs_fix = false`. -/
theorem c1_witness :
    assessObj [("account", JVal.str "x")] =
      .ok ⟨truthy (pyGet [("account", JVal.str "x")] "account" .null),
           specHasMe [("account", JVal.str "x")],
           pyGet [("account", JVal.str "x")] "registered" (.bool false),
           truthy (pyGet [("account", JVal.str "x")] "account" .null) &&
             specHasMe [("account", JVal.str "x")] &&
             !truthy (pyGet [("account", JVal.str "x")] "registered" (.bool false))⟩ :=
  (c1_assess_formula [("account", JVal.str "x")] rfl).1

/-- C2: for every record whose status needs the fix, the repair sets
`registered` to `true` and leaves every other key unchanged; for every
record whose status needs no fix, the repair returns the record unchanged
and no invocation on a file holding that record ever writes. -/
theorem c2_repair_frame (d : List (String × JVal)) (s : Status)
    (h : assessObj d = .ok s) :
    (s.needs_fix = true →
      getVal (repairRecord d s) "registered" = some (.bool true) ∧
      ∀ k, k ≠ "registered" → getVal (repairRecord d s) k = getVal d k) ∧
    (s.needs_fix = false →
      repairRecord d s = d ∧
      ∀ fs o, fs.creds = some (.file (.wf (.obj d))) →
        Ev.write ∉ (fixRegistrationFlag fs o).trace) := by
  constructor
  · intro hnf
    refine ⟨?_, ?_⟩
    · simp [repairRecord, hnf, getVal_setKey_self]
    · intro k hk
      simp [repairRecord, hnf, getVal_setKey_ne d "registered" (.bool true) k hk]
  · intro hnf
    exact ⟨by simp [repairRecord, hnf],
      fun fs o hc => no_write_of_noFix d s h hnf fs o hc⟩

/-- C2 witness: on `{"account": "x", "me": {"id": "1"}, "registered": false}`
the status needs the fix; the repair sets `registered` to `true` and
leaves the `me` key untouched. -/
theorem c2_witness :
    getVal (repairRecord
        [("account", JVal.str "x"), ("me", JVal.obj [("id", JVal.str "1")]),
         ("registered", JVal.bool false)]
        ⟨true, true, JVal.bool false, true⟩) "registered" = some (JVal.bool true) ∧
    getVal (repairRecord
        [("account", JVal.str "x"), ("me", JVal.obj [("id", JVal.str "1")]),
         ("registered", JVal.bool false)]
        ⟨true, true, JVal.bool false, true⟩) "me" =
      getVal [("account", JVal.str "x"), ("me", JVal.obj [("id", JVal.str "1")]),
              ("registered", JVal.bool false)] "me" := by
  have h := c2_repair_frame
    [("account", JVal.str "x"), ("me", JVal.obj [("id", JVal.str "1")]),
     ("registered", JVal.bool false)]
    ⟨true, true, JVal.bool false, true⟩ rfl
  exact ⟨(h.1 rfl).1, (h.1 rfl).2 "me" (by decide)⟩

/-- C3: whenever an invocation writes the credentials file, the backup step
succeeded beforehand — the trace is exactly read, read, backup copy, then
write, and afterwards the backup path holds the original content of the
credentials file — and when the backup step fails, the run aborts before
the overwrite, so no write event ever occurs. -/
theorem c3_backup_before_write (fs : FS) (o : Oracle) :
    (Ev.write ∈ (fixRegistrationFlag fs o).trace →
      (fixRegistrationFlag fs o).trace = [.read, .read, .backupCopy, .write] ∧
      ∃ c, fs.creds = some (.file c) ∧
        (fixRegistrationFlag fs o).fs.backup = some c) ∧
    (o.backupFails = true → Ev.write ∉ (fixRegistrationFlag fs o).trace) := by
  rcases run_shape fs o with ⟨hfs, ht | ht | ht | ⟨ht, hb⟩⟩ | ⟨ht, hb, c, hc, hbk⟩
  · rw [ht]; exact ⟨fun hw => absurd hw (by decide), fun _ hw => absurd hw (by decide)⟩
  · rw [ht]; exact ⟨fun hw => absurd hw (by decide), fun _ hw => absurd hw (by decide)⟩
  · rw [ht]; exact ⟨fun hw => absurd hw (by decide), fun _ hw => absurd hw (by decide)⟩
  · rw [ht]; exact ⟨fun hw => absurd hw (by decide), fun _ hw => absurd hw (by decide)⟩
  · rw [ht]
    exact ⟨fun _ => ⟨rfl, c, hc, hbk⟩,
      fun hb' => absurd (hb.symm.trans hb') (by decide)⟩

/-- C3 witness: on a file holding
`{"account": "x", "me": {"id": "1"}}` with no prior backup and a
failure-free oracle, the run writes and its trace is read, read, backup
copy, write. -/
theorem c3_witness :
    (fixRegistrationFlag
        ⟨some (.file (.wf (JVal.obj
          [("account", JVal.str "x"), ("me", JVal.obj [("id", JVal.str "1")])]))),
         none⟩ noFail).trace = [.read, .read, .backupCopy, .write] :=
  ((c3_backup_before_write
      ⟨some (.file (.wf (JVal.obj
        [("account", JVal.str "x"), ("me", JVal.obj [("id", JVal.str "1")])]))),
       none⟩ noFail).1 (by decide)).1

/-- C4, counterexample: an invocation on a file holding the well-formed
object `{}` performs two file reads — one in `validate_credentials` and
one in `load_credentials` — so "at most one file read per invocation" is
false. -/
theorem c4_counterexample :
    (fixRegistrationFlag ⟨some (.file (.wf (JVal.obj []))), none⟩ noFail).trace.count
        Ev.read = 2 ∧
    ¬((fixRegistrationFlag ⟨some (.file (.wf (JVal.obj []))), none⟩ noFail).trace.count
        Ev.read ≤ 1) := by
  constructor <;> decide

/-- C4 (amended): every single invocation performs at most two file reads
(one while validating, one while loading), at most one backup copy, and
at most one file write. -/
theorem c4_effect_bounds (fs : FS) (o : Oracle) :
    (fixRegistrationFlag fs o).trace.count Ev.read ≤ 2 ∧
    (fixRegistrationFlag fs o).trace.count Ev.backupCopy ≤ 1 ∧
    (fixRegistrationFlag fs o).trace.count Ev.write ≤ 1 := by
  rcases run_shape fs o with ⟨-, ht | ht | ht | ⟨ht, -⟩⟩ | ⟨ht, -, -⟩ <;>
    rw [ht] <;> exact ⟨by decide, by decide, by decide⟩

/-- C5: on a file holding a well-formed object, running the tool twice with
no I/O failures yields the same final filesystem state as running it
once; the second run never writes, and when the first run succeeded the
second reports success through the no-fix path; equivalently, at the
record level, re-assessing the record produced by the conditional repair
always yields `needs_fix = false`. -/
theorem c5_idempotent (fs : FS) (d : List (String × JVal))
    (hc : fs.creds = some (.file (.wf (.obj d)))) :
    ((fixRegistrationFlag (fixRegistrationFlag fs noFail).fs noFail).fs =
      (fixRegistrationFlag fs noFail).fs) ∧
    Ev.write ∉ (fixRegistrationFlag (fixRegistrationFlag fs noFail).fs noFail).trace ∧
    ((fixRegistrationFlag fs noFail).result = .ok true →
      (fixRegistrationFlag (fixRegistrationFlag fs noFail).fs noFail).result =
        .ok true) ∧
    (∀ s, assessObj d = .ok s →
      ∃ s2, assessObj (repairRecord d s) = .ok s2 ∧ s2.needs_fix = false) := by
  obtain ⟨creds, backup⟩ := fs
  simp only at hc
  subst hc
  rcases hA : assessObj d with e | s
  · rw [run_assessErr backup d e hA]
    simp only
    rw [run_assessErr backup d e hA]
    refine ⟨rfl, by show Ev.write ∉ [Ev.read, Ev.read]; decide, by simp, ?_⟩
    intro s hs
    exact absurd hs (by simp)
  · cases hnf : s.needs_fix
    · rw [run_noFix backup d s hA hnf]
      simp only
      rw [run_noFix backup d s hA hnf]
      exact ⟨rfl, by show Ev.write ∉ [Ev.read, Ev.read]; decide, fun _ => rfl,
        fun s' hs' => assess_after_repair d s' (hA.trans hs')⟩
    · rw [run_fix backup d s hA hnf]
      simp only
      obtain ⟨s2, h2, hnf2⟩ := assessObj_setKey_registered d s hA
      rw [run_noFix (some (.wf (.obj d))) (setKey d "registered" (.bool true)) s2 h2 hnf2]
      exact ⟨rfl, by show Ev.write ∉ [Ev.read, Ev.read]; decide, fun _ => rfl,
        fun s' hs' => assess_after_repair d s' (hA.trans hs')⟩

/-- C5 witness: on a file holding
`{"account": true, "me": {"id": 5}}` the first failure-free run repairs
the file and a second run leaves the filesystem exactly as the first one
left it. -/
theorem c5_witness :
    (fixRegistrationFlag
        (fixRegistrationFlag
          ⟨some (.file (.wf (JVal.obj
            [("account", JVal.bool true), ("me", JVal.obj [("id", JVal.num 5)])]))),
           none⟩ noFail).fs noFail).fs =
      (fixRegistrationFlag
        ⟨some (.file (.wf (JVal.obj
          [("account", JVal.bool true), ("me", JVal.obj [("id", JVal.num 5)])]))),
         none⟩ noFail).fs :=
  (c5_idempotent
    ⟨some (.file (.wf (JVal.obj
      [("account", JVal.bool true), ("me", JVal.obj [("id", JVal.num 5)])]))),
     none⟩
    [("account", JVal.bool true), ("me", JVal.obj [("id", JVal.num 5)])] rfl).1

/-- C6: when the credentials path does not exist and the run is not
interrupted, the tool exits with code 1, the filesystem is untouched (no
file created, no backup created), and no filesystem event occurs; when
the file exists but holds malformed JSON, the tool exits with code 1 and
the filesystem — in particular the original file's bytes — is untouched. -/
theorem c6_missing_and_malformed (fs : FS) (o : Oracle)
    (hi : o.interrupted = false) :
    (fs.creds = none →
      runExit fs o = 1 ∧ (fixRegistrationFlag fs o).fs = fs ∧
      (fixRegistrationFlag fs o).trace = []) ∧
    (∀ n, fs.creds = some (.file (.bad n)) →
      runExit fs o = 1 ∧ (fixRegistrationFlag fs o).fs = fs) := by
  obtain ⟨creds, backup⟩ := fs
  constructor
  · intro hc
    simp only at hc
    subst hc
    simp [runExit, fixRegistrationFlag, validateCreds, hi]
  · intro n hc
    simp only at hc
    subst hc
    cases hr1 : o.read1Fails
    · simp [runExit, fixRegistrationFlag, validateCreds, parseOf, hi, hr1]
    · simp [runExit, fixRegistrationFlag, validateCreds, hi, hr1]

/-- C6 witness: with neither a credentials file nor a backup present and no
interruption, the run exits 1 and the filesystem stays empty. -/
theorem c6_witness :
    runExit ⟨none, none⟩ noFail = 1 ∧ (fixRegistrationFlag ⟨none, none⟩ noFail).fs =
      (⟨none, none⟩ : FS) :=
  ⟨((c6_missing_and_malformed ⟨none, none⟩ noFail rfl).1 rfl).1,
   ((c6_missing_and_malformed ⟨none, none⟩ noFail rfl).1 rfl).2.1⟩

/-- C7: for every invocation, the process exit status is 130 exactly when
the operator interrupted the run, 0 exactly when the run was not
interrupted and the fix routine reported success (fix applied or no fix
needed), and 1 exactly when the run was not interrupted and the fix
routine reported failure or raised an exception. -/
theorem c7_exit_codes (fs : FS) (o : Oracle) :
    (runExit fs o = 130 ↔ o.interrupted = true) ∧
    (runExit fs o = 0 ↔ o.interrupted = false ∧
      (fixRegistrationFlag fs o).result = .ok true) ∧
    (runExit fs o = 1 ↔ o.interrupted = false ∧
      ((fixRegistrationFlag fs o).result = .ok false ∨
       ∃ e, (fixRegistrationFlag fs o).result = .error e)) := by
  cases hi : o.interrupted
  · rcases hr : (fixRegistrationFlag fs o).result with e | b
    · simp [runExit, hi, hr]
      exact ⟨e, trivial⟩
    · cases b <;> simp [runExit, hi, hr]
  · simp [runExit, hi]

/-- C8, counterexample: the record
`{"account": true, "me": null, "registered": false}` makes the assessment
raise `AttributeError` — `creds.get("me", {})` returns the stored `None`,
which has no `.get` — so the assessment does not succeed for every JSON
record. -/
theorem c8_counterexample :
    assess (JVal.obj
        [("account", JVal.bool true), ("me", JVal.null),
         ("registered", JVal.bool false)]) = .error .attributeError := rfl

/-- C8 (amended): the `has_me` computation never raises when the `me` key
is absent — an absent `me` is treated as an empty object — or holds an
object; when `me` is present with a non-object value the assessment
raises `AttributeError` instead of succeeding. -/
theorem c8_me_access (d : List (String × JVal)) :
    (meOkB d = true → ∃ s, assessObj d = .ok s) ∧
    (meOkB d = false → assessObj d = .error .attributeError) := by
  unfold meOkB assessObj pyGet
  rcases hme : getVal d "me" with _ | v
  · exact ⟨fun _ => ⟨_, rfl⟩, fun h => by simp at h⟩
  · cases v with
    | null => exact ⟨fun h => by simp at h, fun _ => rfl⟩
    | bool b => exact ⟨fun h => by simp at h, fun _ => rfl⟩
    | num n => exact ⟨fun h => by simp at h, fun _ => rfl⟩
    | str t => exact ⟨fun h => by simp at h, fun _ => rfl⟩
    | arr xs => exact ⟨fun h => by simp at h, fun _ => rfl⟩
    | obj m => exact ⟨fun _ => ⟨_, rfl⟩, fun h => by simp at h⟩

/-- C8 witness: the record `{"account": 3}`, with `me` absent, assesses
without raising. -/
theorem c8_witness : ∃ s, assessObj [("account", JVal.num 3)] = .ok s :=
  (c8_me_access [("account", JVal.num 3)]).1 rfl

/-- C9: the backup is written to the sibling path whose final component is
the original file name with the fixed suffix `".backup"` appended, and —
whenever the backup step runs without failing — the backup path
afterwards holds a byte-for-byte copy of the original file's content,
overwriting whatever was at the backup path before. -/
theorem c9_backup_location (dir : List (List Char)) (name : List Char)
    (h : name ≠ []) (fs : FS) (o : Oracle) (c : Content) (v : JVal)
    (hc : fs.creds = some (.file c)) (hb : o.backupFails = false) :
    backupPath (dir, name) = (dir, name ++ ".backup".toList) ∧
    ((saveCreds fs o v).2.1).backup = some c := by
  constructor
  · simp [backupPath, backupName_append name h]
  · obtain ⟨creds, backup⟩ := fs
    simp only at hc
    subst hc
    cases hw : o.writeFails <;> simp [saveCreds, hb, hw]

/-- C9 witness: for a file named `creds.json` the backup name is
`creds.json.backup`, and saving over a file whose content is `bad 7`
while a stale backup `bad 9` exists leaves `bad 7` at the backup path. -/
theorem c9_witness :
    backupPath ([], "creds.json".toList) = ([], "creds.json.backup".toList) ∧
    ((saveCreds ⟨some (.file (.bad 7)), some (.bad 9)⟩ noFail JVal.null).2.1).backup =
      some (.bad 7) := by
  have h := c9_backup_location [] "creds.json".toList (by decide)
    ⟨some (.file (.bad 7)), some (.bad 9)⟩ noFail (.bad 7) JVal.null rfl rfl
  exact ⟨h.1.trans (by decide), h.2⟩

/-- C10, counterexample: a credentials file holding the well-formed
non-object JSON value `null` makes the invocation exit 1, but the
registration-status check never runs and no exception is raised: the
loaded value is Python `None`, so `fix_registration_flag` takes the
`creds is None` early return and reports plain failure. -/
theorem c10_counterexample :
    (fixRegistrationFlag ⟨some (.file (.wf JVal.null)), none⟩ noFail).result =
      .ok false ∧
    runExit ⟨some (.file (.wf JVal.null)), none⟩ noFail = 1 := ⟨rfl, rfl⟩

/-- C10 (amended): for every well-formed non-object top-level value the
uninterrupted invocation exits 1 and the file is not written; when the
value is an array, string, number, or boolean and both reads succeed,
the status check indeed raises `AttributeError`, which the top level
catches; a top-level `null`, however, is returned from the loader as
`None` and takes the explicit `creds is None` failure path without any
exception. -/
theorem c10_nonobject (v : JVal) (backup : Option Content) (o : Oracle)
    (hv : isObj v = false) (hi : o.interrupted = false) :
    runExit ⟨some (.file (.wf v)), backup⟩ o = 1 ∧
    (fixRegistrationFlag ⟨some (.file (.wf v)), backup⟩ o).fs =
      ⟨some (.file (.wf v)), backup⟩ ∧
    (o.read1Fails = false → o.read2Fails = false → v ≠ .null →
      (fixRegistrationFlag ⟨some (.file (.wf v)), backup⟩ o).result =
        .error .attributeError) ∧
    (v = .null →
      (fixRegistrationFlag ⟨some (.file (.wf v)), backup⟩ o).result = .ok false) := by
  cases v with
  | obj d => simp [isObj] at hv
  | null =>
      cases hr1 : o.read1Fails <;> cases hr2 : o.read2Fails <;>
        simp [runExit, fixRegistrationFlag, validateCreds, loadCreds, parseOf,
              hi, hr1, hr2]
  | bool b =>
      cases hr1 : o.read1Fails <;> cases hr2 : o.read2Fails <;>
        simp [runExit, fixRegistrationFlag, validateCreds, loadCreds, parseOf,
              assess, hi, hr1, hr2]
  | num n =>
      cases hr1 : o.read1Fails <;> cases hr2 : o.read2Fails <;>
        simp [runExit, fixRegistrationFlag, validateCreds, loadCreds, parseOf,
              assess, hi, hr1, hr2]
  | str t =>
      cases hr1 : o.read1Fails <;> cases hr2 : o.read2Fails <;>
        simp [runExit, fixRegistrationFlag, validateCreds, loadCreds, parseOf,
              assess, hi, hr1, hr2]
  | arr xs =>
      cases hr1 : o.read1Fails <;> cases hr2 : o.read2Fails <;>
        simp [runExit, fixRegistrationFlag, validateCreds, loadCreds, parseOf,
              assess, hi, hr1, hr2]

/-- C10 witness: a file holding the JSON array `[1]` makes the failure-free
run surface the `AttributeError` from the status check. -/
theorem c10_witness :
    (fixRegistrationFlag ⟨some (.file (.wf (JVal.arr [JVal.num 1]))), none⟩
        noFail).result = .error .attributeError := by
  have h := c10_nonobject (JVal.arr [JVal.num 1]) none noFail rfl rfl
  exact h.2.2.1 rfl rfl (fun hn => by cases hn)

end CredFix
